import Mathlib

/-!
Verification of the recipe generation-and-validation pipeline.

Shallow embedding of the decision logic of src/llm/output_validator.py
(class RecipeValidator) and src/llm/recipe_generator.py
(class RecipeGenerator). Dynamically typed Python values are embedded as
the inductive type PyVal; code that can raise a runtime exception is
embedded in the Except monad.
-/

/-- Dynamic values: the fragment of Python values the pipeline manipulates,
namely integers, strings, lists, string-keyed dictionaries and None. -/
inductive PyVal where
  | int (n : Int)
  | str (s : String)
  | list (xs : List PyVal)
  | dict (kvs : List (String × PyVal))
  | none_

mutual

/-- Python equality on the embedded values: structural within a type,
False across types (Python == never raises). -/
def pyBeq : PyVal → PyVal → Bool
  | .int a, .int b => a == b
  | .str a, .str b => a == b
  | .list xs, .list ys => pyListBeq xs ys
  | .dict xs, .dict ys => pyDictBeq xs ys
  | .none_, .none_ => true
  | _, _ => false

/-- Elementwise Python equality of two lists. -/
def pyListBeq : List PyVal → List PyVal → Bool
  | [], [] => true
  | x :: xs, y :: ys => pyBeq x y && pyListBeq xs ys
  | _, _ => false

/-- Entrywise Python equality of two dictionaries (entry order sensitive;
the dictionaries the pipeline compares come from Python dicts, which carry
a canonical entry order). -/
def pyDictBeq : List (String × PyVal) → List (String × PyVal) → Bool
  | [], [] => true
  | (k, v) :: xs, (l, w) :: ys => k == l && pyBeq v w && pyDictBeq xs ys
  | _, _ => false

end

/-- Runtime exceptions the embedded code can raise. -/
inductive PyErr where
  | keyError
  | typeError
  | attributeError
deriving DecidableEq

/-- Truthiness of a Python value. -/
def pyTruthy : PyVal → Bool
  | .int n => n != 0
  | .str s => !s.isEmpty
  | .list xs => !xs.isEmpty
  | .dict kvs => !kvs.isEmpty
  | .none_ => false

/-- Test for isinstance(x, list). -/
def isList : PyVal → Bool
  | .list _ => true
  | _ => false

/-- Test for isinstance(x, str). -/
def isStr : PyVal → Bool
  | .str _ => true
  | _ => false

/-- Test whether the second character list occurs at the start of the first. -/
def chStarts : List Char → List Char → Bool
  | _, [] => true
  | [], _ :: _ => false
  | a :: as, b :: bs => a == b && chStarts as bs

/-- Test whether the needle occurs contiguously somewhere inside the hay. -/
def chSub (needle : List Char) : List Char → Bool
  | [] => needle.isEmpty
  | c :: rest => chStarts (c :: rest) needle || chSub needle rest

/-- Python substring test needle in hay. -/
def strContainsSub (hay needle : String) : Bool :=
  chSub needle.data hay.data

/-- Dictionary subscript d[k]: KeyError when the key is absent (first
occurrence wins), TypeError when the value is not a dictionary. -/
def dictGet : PyVal → String → Except PyErr PyVal
  | .dict kvs, k =>
      match kvs.find? (fun p => p.1 == k) with
      | some p => .ok p.2
      | none => .error .keyError
  | _, _ => .error .typeError

/-- Membership test k in v for a string key: key membership on a
dictionary, substring on a string, element membership on a list;
TypeError otherwise. -/
def pyContains (v : PyVal) (k : String) : Except PyErr Bool :=
  match v with
  | .dict kvs => .ok (kvs.any (fun p => p.1 == k))
  | .str s => .ok (strContainsSub s k)
  | .list xs => .ok (xs.any (fun x => pyBeq x (.str k)))
  | .int _ => .error .typeError
  | .none_ => .error .typeError

/-- Python len: defined on strings, lists and dictionaries; TypeError
otherwise. -/
def pyLen : PyVal → Except PyErr Int
  | .str s => .ok s.length
  | .list xs => .ok xs.length
  | .dict kvs => .ok kvs.length
  | .int _ => .error .typeError
  | .none_ => .error .typeError

/-- Python iteration: the elements of a list, the one-character strings of
a string, the keys of a dictionary; TypeError otherwise. -/
def pyIter : PyVal → Except PyErr (List PyVal)
  | .list xs => .ok xs
  | .str s => .ok (s.data.map (fun c => .str (String.singleton c)))
  | .dict kvs => .ok (kvs.map (fun p => .str p.1))
  | .int _ => .error .typeError
  | .none_ => .error .typeError

/-- Python ordering a <= b on the fragment the validator compares:
int with int and str with str (lexicographic); a mixed or unordered pair
raises TypeError. Sequence-with-sequence ordering, which no quantity in
the pipeline exercises, is conservatively mapped to TypeError as well. -/
def pyLe (a b : PyVal) : Except PyErr Bool :=
  match a, b with
  | .int n, .int m => .ok (decide (n ≤ m))
  | .str s, .str t => .ok (decide (s ≤ t))
  | _, _ => .error .typeError

/-- Python str.lower restricted to the ASCII case mapping: lowercase each
character (String.toLower does the same mapping but is compiled by
well-founded recursion, which blocks evaluation inside proofs). -/
def strLower (s : String) : String := ⟨s.data.map Char.toLower⟩

/-- Evaluation of x.lower(): AttributeError unless x is a string. -/
def pyLower : PyVal → Except PyErr String
  | .str s => .ok (strLower s)
  | _ => .error .attributeError

/-- Configuration failures RecipeValidator.__init__ raises (ValueError in
the source; the ConfigError taxonomy of the spec), one constructor per
raise site in order of appearance. -/
inductive ConfigError where
  | emptyAvailable
  | badAvailableEntry
  | badDisliked
  | badMinIngredients
deriving DecidableEq

/-- A constructed RecipeValidator. The constructor has checked that every
element of available_ingredients is a dictionary carrying name and
quantity keys, so available is kept as the (name value, quantity value)
pairs of those dictionaries in order; disliked_ingredients is stored raw;
min_ingredients_required is the checked positive integer. -/
structure Validator where
  available : List (PyVal × PyVal)
  disliked : PyVal
  min_ingredients_required : Int

/-- Check that every element of the available list is a dictionary carrying
name and quantity keys, extracting those two values from each (the all(...)
test of the constructor, fused with the field accesses the later checks
perform on the stored list). -/
def extractAvail : List PyVal → Option (List (PyVal × PyVal))
  | [] => some []
  | .dict kvs :: rest =>
      match kvs.find? (fun p => p.1 == "name"),
            kvs.find? (fun p => p.1 == "quantity") with
      | some n, some q => (extractAvail rest).map (fun ps => (n.2, q.2) :: ps)
      | _, _ => none
  | _ => none

/-- RecipeValidator.__init__: the four argument checks in source order.
The source guard `not available_ingredients or not isinstance(available_ingredients, list)`
raises for every non-list (truthy or falsy alike) and for an empty list,
which is exactly the shape match below. Note the disliked check is guarded
by truthiness, so a falsy non-list (empty string, zero, None, empty
dictionary) passes it. -/
def mkValidator : PyVal → PyVal → PyVal → Except ConfigError Validator
  | .list items, disliked_ingredients, min_ingredients_required =>
      if items.isEmpty then .error .emptyAvailable
      else
        match extractAvail items with
        | none => .error .badAvailableEntry
        | some pairs =>
            if pyTruthy disliked_ingredients && !isList disliked_ingredients then
              .error .badDisliked
            else
              match min_ingredients_required with
              | .int m =>
                  if m ≤ 0 then .error .badMinIngredients
                  else .ok ⟨pairs, disliked_ingredients, m⟩
              | _ => .error .badMinIngredients
  | _, _, _ => .error .emptyAvailable

/-- The five required fields of validate_recipe_structure, in source order. -/
def required_fields : List String :=
  ["name", "ingredients", "steps", "cooking_time", "difficulty_level"]

/-- The field loop of validate_recipe_structure: return False at the first
field not contained in the candidate. -/
def structLoop (recipe : PyVal) : List String → Except PyErr Bool
  | [] => .ok true
  | f :: rest => do
      let present ← pyContains recipe f
      if present then structLoop recipe rest else .ok false

/-- RecipeValidator.validate_recipe_structure: all five required fields
must be present on the candidate (Python in operator). -/
def validate_recipe_structure (recipe : PyVal) : Except PyErr Bool :=
  structLoop recipe required_fields

/-- The next(...) search of validate_ingredient_quantities: the first
element of available whose name value equals the given one, yielding its
quantity value. -/
def findAvail (available_ingredients : List (PyVal × PyVal)) (nameV : PyVal) : Option PyVal :=
  (available_ingredients.find? (fun p => pyBeq p.1 nameV)).map (fun p => p.2)

/-- RecipeValidator.is_quantity_sufficient: required <= available under
Python comparison. -/
def is_quantity_sufficient (required_quantity available_quantity : PyVal) :
    Except PyErr Bool :=
  pyLe required_quantity available_quantity

/-- The ingredient loop of validate_ingredient_quantities: take the name
and quantity of each listed ingredient, skip it when no available
ingredient carries that name, and return False at the first observed
shortfall. -/
def quantLoop (available_ingredients : List (PyVal × PyVal)) : List PyVal → Except PyErr Bool
  | [] => .ok true
  | ing :: rest => do
      let nameV ← dictGet ing "name"
      let requiredQ ← dictGet ing "quantity"
      match findAvail available_ingredients nameV with
      | none => quantLoop available_ingredients rest
      | some availableQ => do
          let suff ← is_quantity_sufficient requiredQ availableQ
          if suff then quantLoop available_ingredients rest else .ok false

/-- RecipeValidator.validate_ingredient_quantities. -/
def validate_ingredient_quantities (v : Validator) (ingredients : PyVal) :
    Except PyErr Bool := do
  let items ← pyIter ingredients
  quantLoop v.available items

/-- The any(...) generator of validate_culinary_sense for one ingredient:
the body is evaluated once per step, so with an empty step list it yields
False without touching the ingredient at all. -/
def mentionLoop (ing : PyVal) : List PyVal → Except PyErr Bool
  | [] => .ok false
  | step :: rest => do
      let nameV ← dictGet ing "name"
      let nameL ← pyLower nameV
      let stepL ← pyLower step
      if strContainsSub stepL nameL then .ok true else mentionLoop ing rest

/-- The ingredient loop of validate_culinary_sense: return False at the
first ingredient mentioned in no step. -/
def culinaryLoop (steps : PyVal) : List PyVal → Except PyErr Bool
  | [] => .ok true
  | ing :: rest => do
      let stepItems ← pyIter steps
      let mentioned ← mentionLoop ing stepItems
      if mentioned then culinaryLoop steps rest else .ok false

/-- RecipeValidator.validate_culinary_sense: enough ingredients, then every
ingredient mentioned in some step as a case-insensitive substring. -/
def validate_culinary_sense (v : Validator) (ingredients steps : PyVal) :
    Except PyErr Bool := do
  let n ← pyLen ingredients
  if n < v.min_ingredients_required then .ok false
  else do
    let items ← pyIter ingredients
    culinaryLoop steps items

/-- The checks the per-recipe loop of validate_recipes can apply, in order. -/
inductive Check where
  | structural
  | quantity
  | culinary
deriving DecidableEq

/-- One iteration of the validate_recipes loop: the three checks in source
order with short-circuit, returning whether the recipe is accepted together
with the list of checks that were applied to it. -/
def processRecipe (v : Validator) (recipe : PyVal) :
    Except PyErr (Bool × List Check) := do
  let s ← validate_recipe_structure recipe
  if !s then .ok (false, [.structural])
  else do
    let ings ← dictGet recipe "ingredients"
    let q ← validate_ingredient_quantities v ings
    if !q then .ok (false, [.structural, .quantity])
    else do
      let ings2 ← dictGet recipe "ingredients"
      let steps ← dictGet recipe "steps"
      let c ← validate_culinary_sense v ings2 steps
      if !c then .ok (false, [.structural, .quantity, .culinary])
      else .ok (true, [.structural, .quantity, .culinary])

/-- RecipeValidator.validate_recipes: iterate the entries of the collection,
keeping in iteration order exactly the recipes that pass all three checks. -/
def validate_recipes (v : Validator) : List (String × PyVal) → Except PyErr (List PyVal)
  | [] => .ok []
  | (_, recipe) :: rest => do
      let r ← processRecipe v recipe
      let tail ← validate_recipes v rest
      if r.1 then .ok (recipe :: tail) else .ok tail

/-- Replies the opaque model capability can return: an object exposing a
content field, a plain string, or any other object (carrying the text its
str rendering would produce). -/
inductive LLMReply where
  | withContent (content : String)
  | plainStr (s : String)
  | otherObj (strRepr : String)

/-- The reply-to-text expression of RecipeGenerator._invoke_llm, namely
response.content if hasattr(response, "content") else str(response). -/
def extractText : LLMReply → String
  | .withContent c => c
  | .plainStr s => s
  | .otherObj r => r

/-- Failures RecipeGenerator.generate_recipes can surface (ValueError in
the source; the InputError and ModelError taxonomy of the spec). -/
inductive GenError where
  | inputError
  | modelError
deriving DecidableEq

/-- A RecipeGenerator: the opaque model capability (which may raise), the
opaque structured-output parser (which may raise), its format-instructions
string, and the prompt template. -/
structure RecipeGenerator where
  llm : String → Except String LLMReply
  parserParse : String → Except String (List PyVal)
  format_instructions : String
  prompt_template : String

/-- RecipeGenerator._invoke_llm: call the capability once; any raised error
becomes ModelError; a delivered reply is turned to text via its content
field when present, its str rendering otherwise. -/
def invoke_llm (g : RecipeGenerator) (prompt_text : String) : Except GenError String :=
  match g.llm prompt_text with
  | .error _ => .error .modelError
  | .ok response => .ok (extractText response)

/-- The single-quote character Python repr puts around strings. -/
def sglq : String := String.singleton (Char.ofNat 39)

mutual

/-- Python repr of the embedded values, as interpolated into prompts. -/
def pyRepr : PyVal → String
  | .int n => toString n
  | .str s => sglq ++ s ++ sglq
  | .list xs => "[" ++ pyReprList xs ++ "]"
  | .dict kvs => "\x7b" ++ pyReprDict kvs ++ "\x7d"
  | .none_ => "None"

/-- Comma-separated reprs of the elements of a list. -/
def pyReprList : List PyVal → String
  | [] => ""
  | [x] => pyRepr x
  | x :: rest => pyRepr x ++ ", " ++ pyReprList rest

/-- Comma-separated reprs of the entries of a dictionary. -/
def pyReprDict : List (String × PyVal) → String
  | [] => ""
  | [(k, v)] => sglq ++ k ++ sglq ++ ": " ++ pyRepr v
  | (k, v) :: rest => sglq ++ k ++ sglq ++ ": " ++ pyRepr v ++ ", " ++ pyReprDict rest

end

/-- Python str of a list value, as str.format interpolates a list argument. -/
def pyStrList (xs : List PyVal) : String := "[" ++ pyReprList xs ++ "]"

/-- Substitution of named placeholders into the template: str.format
restricted to simple named fields, applied sequentially. -/
def formatTemplate (t : String) : List (String × String) → String
  | [] => t
  | (k, val) :: rest => formatTemplate (t.replace ("\x7b" ++ k ++ "\x7d") val) rest

/-- RecipeGenerator._format_prompt: interpolate the three ingredient lists
and the format instructions into the prompt template. -/
def format_prompt (g : RecipeGenerator)
    (available_ingredients liked_ingredients disliked_ingredients : List PyVal) : String :=
  formatTemplate g.prompt_template
    [("available_ingredients", pyStrList available_ingredients),
     ("liked_ingredients", pyStrList liked_ingredients),
     ("disliked_ingredients", pyStrList disliked_ingredients),
     ("format_instructions", g.format_instructions)]

/-- RecipeGenerator._parse_recipes: a parser failure is caught and becomes
an empty list. -/
def parse_recipes (g : RecipeGenerator) (response_text : String) : List PyVal :=
  match g.parserParse response_text with
  | .ok recipes => recipes
  | .error _ => []

/-- The three all-elements-are-strings tests of
RecipeGenerator._validate_ingredients, in source order. -/
def validate_ingredients_ok (ingredients liked_ingredients disliked_ingredients : List PyVal) : Bool :=
  ingredients.all isStr && liked_ingredients.all isStr && disliked_ingredients.all isStr

/-- RecipeGenerator.generate_recipes, paired with the list of prompts the
run actually sent to the model capability: input validation first (raising
InputError before any model call), then the guarded invoke-and-parse whose
failures are caught and become an empty list. -/
def generate_recipes_run (g : RecipeGenerator)
    (ingredients liked_ingredients disliked_ingredients : List PyVal) :
    Except GenError (List PyVal) × List String :=
  if !validate_ingredients_ok ingredients liked_ingredients disliked_ingredients then
    (.error .inputError, [])
  else
    let prompt_text := format_prompt g ingredients liked_ingredients disliked_ingredients
    match invoke_llm g prompt_text with
    | .error _ => (.ok [], [prompt_text])
    | .ok response_text => (.ok (parse_recipes g response_text), [prompt_text])

/-- RecipeGenerator.generate_recipes. -/
def generate_recipes (g : RecipeGenerator)
    (ingredients liked_ingredients disliked_ingredients : List PyVal) :
    Except GenError (List PyVal) :=
  (generate_recipes_run g ingredients liked_ingredients disliked_ingredients).1

/-- The prompts a generate_recipes run sends to the model capability. -/
def generate_recipes_calls (g : RecipeGenerator)
    (ingredients liked_ingredients disliked_ingredients : List PyVal) : List String :=
  (generate_recipes_run g ingredients liked_ingredients disliked_ingredients).2

/-- Success test on an embedded fallible computation (did the call return
normally rather than raise). -/
def exOk {ε α : Type _} : Except ε α → Bool
  | .ok _ => true
  | .error _ => false

/-- A recipe ingredient entry as the schema shapes it: a dictionary with a
string name and a quantity value. -/
def mkIngDict (p : String × PyVal) : PyVal :=
  .dict [("name", .str p.1), ("quantity", p.2)]

/-- The ingredients field of a recipe candidate: a list of ingredient
entries. -/
def mkIngList (ings : List (String × PyVal)) : PyVal :=
  .list (ings.map mkIngDict)

/-- The steps field of a recipe candidate: a list of strings. -/
def mkSteps (steps : List String) : PyVal :=
  .list (steps.map .str)

/-- A recipe candidate carrying the five required fields of the schema. -/
def mkRecipe (name : String) (ings : List (String × PyVal)) (steps : List String)
    (cooking_time difficulty_level : PyVal) : PyVal :=
  .dict [("name", .str name),
         ("ingredients", mkIngList ings),
         ("steps", mkSteps steps),
         ("cooking_time", cooking_time),
         ("difficulty_level", difficulty_level)]

/-- Spec-side predicate (following the words of the spec, for comparison
with the constructor): the available argument is a non-empty list of
records each carrying both a name and a quantity key. -/
def entryHasKeys : PyVal → Bool
  | .dict kvs =>
      kvs.any (fun p => p.1 == "name") && kvs.any (fun p => p.1 == "quantity")
  | _ => false

/-- Spec-side predicate: well-formedness of the available argument. -/
def availWellFormed : PyVal → Bool
  | .list items => !items.isEmpty && items.all entryHasKeys
  | _ => false

/-- Spec-side predicate: the min-ingredients argument is a positive integer. -/
def minPosInt : PyVal → Bool
  | .int m => decide (0 < m)
  | _ => false

/-- Concrete data for witnesses: the available-ingredients argument of the
test suite restricted to one entry. -/
def availEx : PyVal :=
  .list [.dict [("name", .str "flour"), ("quantity", .int 500), ("unit", .str "g")]]

/-- Concrete validator: the state init builds from availEx, an empty
disliked list and min 1. -/
def vX : Validator := ⟨[(.str "flour", .int 500)], .list [], 1⟩

/-- Concrete validator mirroring the test suite setup: flour 500, sugar 200,
butter 100, disliked egg, min 2. -/
def vW : Validator :=
  ⟨[(.str "flour", .int 500), (.str "sugar", .int 200), (.str "butter", .int 100)],
   .list [.str "egg"], 2⟩

/-- Concrete recipe candidate that passes all three checks against vW. -/
def rGood : PyVal :=
  mkRecipe "Cake" [("flour", .int 100), ("butter", .int 100)]
    ["Mix flour with butter and bake"] (.str "30 minutes") (.str "easy")

/-- Concrete recipe candidate whose ingredient entry lacks the name key. -/
def recipeNoNameKey : PyVal :=
  .dict [("name", .str "Mystery"),
         ("ingredients", .list [.dict [("quantity", .int 1)]]),
         ("steps", .list [.str "stir"]),
         ("cooking_time", .str "5 minutes"),
         ("difficulty_level", .str "easy")]

/-- Concrete recipe candidate whose quantity is a string while the matching
available quantity is an integer, so the comparison raises TypeError. -/
def recipeStrQty : PyVal :=
  .dict [("name", .str "Bread"),
         ("ingredients", .list [.dict [("name", .str "flour"), ("quantity", .str "2")]]),
         ("steps", .list [.str "bake the flour"]),
         ("cooking_time", .str "60 minutes"),
         ("difficulty_level", .str "medium")]

/-- Concrete entry list of a recipe candidate missing the steps field. -/
def kvsNoSteps : List (String × PyVal) :=
  [("name", .str "Cake"),
   ("ingredients", mkIngList [("flour", .int 100)]),
   ("cooking_time", .str "30 minutes"),
   ("difficulty_level", .str "easy")]

/-- Concrete validator pair for the disliked-irrelevance witness: same
available list and min, disliked flour versus disliked nothing. -/
def vA : Validator := ⟨[(.str "flour", .int 500)], .list [.str "flour"], 1⟩

/-- Companion of vA with an empty disliked list. -/
def vB : Validator := ⟨[(.str "flour", .int 500)], .list [], 1⟩

/-- Concrete recipe candidate using the disliked ingredient flour. -/
def rFlour : PyVal :=
  mkRecipe "Flour soup" [("flour", .int 100)] ["Boil flour in water"]
    (.str "10 minutes") (.str "easy")

/-- Concrete generator whose model capability raises a transport error. -/
def genFail : RecipeGenerator :=
  ⟨fun _ => .error "transport failure", fun s => .ok [.str s], "FI", "TPL"⟩

/-- Concrete generator whose model capability returns a reply that neither
exposes a content field nor is a plain string. -/
def genOther : RecipeGenerator :=
  ⟨fun _ => .ok (.otherObj "reply-object"), fun s => .ok [.str s], "FI", "TPL"⟩

/-- Concrete generator whose model capability returns a content-carrying
reply, and whose parser rejects every text. -/
def genParseFail : RecipeGenerator :=
  ⟨fun _ => .ok (.withContent "not json"), fun _ => .error "decode failure", "FI", "TPL"⟩

/-! ### Helper lemmas about the Except monad and the combinators -/

theorem exBind_ok {ε α β : Type} (a : α) (f : α → Except ε β) :
    (Except.ok a >>= f) = f a := rfl

theorem exBind_error {ε α β : Type} (e : ε) (f : α → Except ε β) :
    ((Except.error e : Except ε α) >>= f) = Except.error e := rfl

theorem dictGet_mkIngDict_name (p : String × PyVal) :
    dictGet (mkIngDict p) "name" = .ok (.str p.1) := rfl

theorem dictGet_mkIngDict_quantity (p : String × PyVal) :
    dictGet (mkIngDict p) "quantity" = .ok p.2 := rfl

theorem findAvail_mem {av : List (PyVal × PyVal)} {x q : PyVal}
    (h : findAvail av x = some q) : ∃ p ∈ av, p.2 = q := by
  unfold findAvail at h
  cases hf : av.find? (fun p => pyBeq p.1 x) with
  | none => rw [hf] at h; simp at h
  | some p =>
      rw [hf] at h
      exact ⟨p, List.mem_of_find?_eq_some hf, by simpa using h⟩

/-! ### C10: the checks are not total beyond the structural stage -/

/-- C10: validate_recipes is not total beyond the structural check. With a
successfully constructed validator, a recipe carrying all five required
fields but an ingredient entry lacking the name key makes validate_recipes
raise KeyError, and one whose quantity is a string while the matching
available quantity is an integer makes it raise TypeError, instead of
accepting or rejecting the recipe. -/
theorem validate_recipes_not_total :
    mkValidator availEx (.list []) (.int 1) = .ok vX ∧
    validate_recipe_structure recipeNoNameKey = .ok true ∧
    validate_recipe_structure recipeStrQty = .ok true ∧
    validate_recipes vX [("recipe_1", recipeNoNameKey)] = .error .keyError ∧
    validate_recipes vX [("recipe_1", recipeStrQty)] = .error .typeError :=
  ⟨rfl, rfl, rfl, rfl, rfl⟩

/-! ### C3: the constructor error condition -/

theorem find?_isSome_any {α : Type} (p : α → Bool) (l : List α) :
    (l.find? p).isSome = l.any p := by
  induction l with
  | nil => rfl
  | cons x xs ih =>
      cases h : p x <;> simp [List.find?_cons, h, ih]

theorem extractAvail_isSome (items : List PyVal) :
    (extractAvail items).isSome = items.all entryHasKeys := by
  induction items with
  | nil => rfl
  | cons x rest ih =>
      cases x with
      | dict kvs =>
          simp only [extractAvail, List.all_cons, entryHasKeys, ← find?_isSome_any]
          cases hn : kvs.find? (fun p => p.1 == "name") <;>
            cases hq : kvs.find? (fun p => p.1 == "quantity") <;>
              simp [hn, hq, ih]
      | int n => simp [extractAvail, entryHasKeys]
      | str s => simp [extractAvail, entryHasKeys]
      | list xs => simp [extractAvail, entryHasKeys]
      | none_ => simp [extractAvail, entryHasKeys]

/-- C3 counterexample: the claim predicts ConfigError whenever the disliked
argument is supplied and is not a list, but a falsy non-list such as the
empty string passes the truthiness-guarded check and construction succeeds. -/
theorem mkValidator_disliked_cex :
    isList (PyVal.str "") = false ∧
    availWellFormed availEx = true ∧
    minPosInt (PyVal.int 1) = true ∧
    exOk (mkValidator availEx (PyVal.str "") (PyVal.int 1)) = true :=
  ⟨rfl, rfl, rfl, rfl⟩

/-- C3 (amended): construction succeeds exactly when the available argument
is a non-empty list of records each carrying name and quantity keys, the
disliked argument is a list or is falsy (empty), and the min-ingredients
argument is a positive integer; it raises ConfigError otherwise. -/
theorem mkValidator_isOk_iff (a d m : PyVal) :
    exOk (mkValidator a d m) =
      (availWellFormed a && (!pyTruthy d || isList d) && minPosInt m) := by
  cases a with
  | list items =>
      simp only [mkValidator]
      by_cases he : items.isEmpty = true
      · rw [if_pos he]
        simp [availWellFormed, he, exOk]
      · have he' : items.isEmpty = false := by simpa using he
        rw [if_neg he]
        cases hx : extractAvail items with
        | none =>
            have hall : items.all entryHasKeys = false := by
              rw [← extractAvail_isSome, hx]; rfl
            simp [hx, availWellFormed, he', hall, exOk]
        | some pairs =>
            have hall : items.all entryHasKeys = true := by
              rw [← extractAvail_isSome, hx]; rfl
            simp only [hx, availWellFormed, he', hall, Bool.not_false,
              Bool.true_and, Bool.and_true]
            by_cases hd : (pyTruthy d && !isList d) = true
            · rw [if_pos hd]
              rw [Bool.and_eq_true] at hd
              have h2 : isList d = false := by
                have := hd.2; simp at this; exact this
              simp [exOk, hd.1, h2]
            · have hd' : (pyTruthy d && !isList d) = false := by
                simpa using hd
              rw [if_neg hd]
              have hdo : (!pyTruthy d || isList d) = true := by
                cases hpt : pyTruthy d
                · simp
                · rw [hpt] at hd'
                  simp at hd'
                  simp [hd']
              rw [hdo]
              cases m with
              | int mi =>
                  by_cases hmi : mi ≤ 0
                  · simp [exOk, minPosInt, hmi, Int.not_lt.mpr hmi]
                  · simp [exOk, minPosInt, hmi, Int.lt_of_not_ge hmi]
              | str s => simp [exOk, minPosInt]
              | list xs => simp [exOk, minPosInt]
              | dict kvs => simp [exOk, minPosInt]
              | none_ => simp [exOk, minPosInt]
  | int n => simp [mkValidator, isList, availWellFormed, exOk]
  | str s => simp [mkValidator, isList, availWellFormed, exOk]
  | dict kvs => simp [mkValidator, isList, availWellFormed, exOk]
  | none_ => simp [mkValidator, isList, availWellFormed, exOk]

/-! ### C6: reply shapes accepted by the invocation step -/

/-- C6 counterexample: a reply that neither exposes a content field nor is
a plain string does not fail with ModelError; the invocation step falls
back to stringifying the whole reply and succeeds. -/
theorem invoke_llm_other_accepted :
    invoke_llm genOther "prompt" = .ok "reply-object" ∧
    invoke_llm genOther "prompt" ≠ .error .modelError :=
  ⟨rfl, fun h => Except.noConfusion h⟩

/-- C6 (amended): the invocation step fails with ModelError exactly when
the capability itself raises; every delivered reply is accepted, its
content field when exposed and its str rendering otherwise (a plain string
being its own rendering). -/
theorem invoke_llm_behavior (g : RecipeGenerator) (p : String) :
    (∀ r, g.llm p = .ok r → invoke_llm g p = .ok (extractText r)) ∧
    (∀ s, g.llm p = .error s → invoke_llm g p = .error .modelError) := by
  constructor
  · intro r hr; simp [invoke_llm, hr]
  · intro s hs; simp [invoke_llm, hs]

/-- Witness for C6 (amended) at a concrete content-carrying reply and a
concrete raising capability. -/
theorem invoke_llm_behavior_witness :
    invoke_llm genParseFail "p" = .ok "not json" ∧
    invoke_llm genFail "p" = .error .modelError :=
  ⟨(invoke_llm_behavior genParseFail "p").1 (.withContent "not json") rfl,
   (invoke_llm_behavior genFail "p").2 "transport failure" rfl⟩

/-! ### C4: model and parse failures degrade to an empty result -/

/-- C4: with all-string inputs, a raising model capability or a reply text
the parser rejects makes generate_recipes return an empty list normally;
neither failure propagates to the caller as an exception. -/
theorem generate_recipes_soft_failure (g : RecipeGenerator)
    (ingredients liked disliked : List PyVal)
    (hstr : validate_ingredients_ok ingredients liked disliked = true)
    (hfail :
      (∃ e, g.llm (format_prompt g ingredients liked disliked) = .error e) ∨
      (∃ r e, g.llm (format_prompt g ingredients liked disliked) = .ok r ∧
        g.parserParse (extractText r) = .error e)) :
    generate_recipes g ingredients liked disliked = .ok [] := by
  unfold generate_recipes generate_recipes_run
  rw [hstr]
  rcases hfail with ⟨e, he⟩ | ⟨r, e, hr, hp⟩
  · simp [invoke_llm, he]
  · simp [invoke_llm, hr, parse_recipes, hp]

/-- Witness for C4: a concrete generator whose capability raises a
transport error returns the empty list and raises nothing. -/
theorem generate_recipes_soft_failure_witness :
    generate_recipes genFail [PyVal.str "egg"] [] [] = .ok [] :=
  generate_recipes_soft_failure genFail [PyVal.str "egg"] [] [] rfl
    (Or.inl ⟨"transport failure", rfl⟩)

/-! ### C7: non-string elements fail fast before any model call -/

/-- C7: a non-string element in any of the three ingredient lists makes
generate_recipes raise InputError, and no prompt is ever sent to the model
capability. -/
theorem generate_recipes_input_error (g : RecipeGenerator)
    (ingredients liked disliked : List PyVal)
    (hbad : (∃ x ∈ ingredients, isStr x = false) ∨
            (∃ x ∈ liked, isStr x = false) ∨
            (∃ x ∈ disliked, isStr x = false)) :
    generate_recipes g ingredients liked disliked = .error .inputError ∧
    generate_recipes_calls g ingredients liked disliked = [] := by
  have hv : validate_ingredients_ok ingredients liked disliked = false := by
    unfold validate_ingredients_ok
    rcases hbad with ⟨x, hx, hs⟩ | ⟨x, hx, hs⟩ | ⟨x, hx, hs⟩
    · have hall : ingredients.all isStr = false := by
        cases hb : ingredients.all isStr
        · rfl
        · have h1 := List.all_eq_true.mp hb x hx
          rw [hs] at h1
          exact absurd h1 (by decide)
      simp [hall]
    · have hall : liked.all isStr = false := by
        cases hb : liked.all isStr
        · rfl
        · have h1 := List.all_eq_true.mp hb x hx
          rw [hs] at h1
          exact absurd h1 (by decide)
      simp [hall]
    · have hall : disliked.all isStr = false := by
        cases hb : disliked.all isStr
        · rfl
        · have h1 := List.all_eq_true.mp hb x hx
          rw [hs] at h1
          exact absurd h1 (by decide)
      simp [hall]
  unfold generate_recipes generate_recipes_calls generate_recipes_run
  rw [hv]
  exact ⟨rfl, rfl⟩

/-- Witness for C7 at the non-string input of the spec example. -/
theorem generate_recipes_input_error_witness :
    generate_recipes genFail [PyVal.int 1, PyVal.int 2, PyVal.int 3] [] [] =
      .error .inputError ∧
    generate_recipes_calls genFail [PyVal.int 1, PyVal.int 2, PyVal.int 3] [] [] = [] :=
  generate_recipes_input_error genFail [PyVal.int 1, PyVal.int 2, PyVal.int 3] [] []
    (Or.inl ⟨PyVal.int 1, List.mem_cons_self _ _, rfl⟩)

/-! ### C8: the accepted subset is a verbatim, order-preserving selection -/

/-- C8: every successful validate_recipes run returns a subsequence of the
collection values: each output recipe is one of the input values, verbatim,
and the output lists the accepted subset in the iteration order of the
input mapping. The validator configuration is untouched: validate_recipes
is a pure function of the validator value. -/
theorem validate_recipes_sublist (v : Validator) (recipes : List (String × PyVal))
    (res : List PyVal) (hrun : validate_recipes v recipes = .ok res) :
    List.Sublist res (recipes.map Prod.snd) := by
  induction recipes generalizing res with
  | nil =>
      simp only [validate_recipes] at hrun
      injection hrun with h
      rw [← h]
      simp
  | cons hd rest ih =>
      obtain ⟨k, r0⟩ := hd
      simp only [validate_recipes] at hrun
      cases hp : processRecipe v r0 with
      | error e => rw [hp] at hrun; exact absurd hrun (by simp [exBind_error])
      | ok pr =>
          rw [hp, exBind_ok] at hrun
          cases ht : validate_recipes v rest with
          | error e => rw [ht] at hrun; exact absurd hrun (by simp [exBind_error])
          | ok tail =>
              rw [ht, exBind_ok] at hrun
              have htail := ih tail ht
              cases hb : pr.1
              · rw [hb] at hrun
                simp only [Bool.false_eq_true, if_false] at hrun
                injection hrun with h
                rw [← h]
                simpa using List.Sublist.cons r0 htail
              · rw [hb] at hrun
                simp only [if_true] at hrun
                injection hrun with h
                rw [← h]
                simpa using List.Sublist.cons₂ r0 htail

/-- Witness for C8: a concrete accepted collection yields a subsequence of
its values. -/
theorem validate_recipes_sublist_witness :
    List.Sublist [rGood] ([("recipe_1", rGood)].map Prod.snd) :=
  validate_recipes_sublist vW [("recipe_1", rGood)] [rGood] rfl

/-! ### C9: the disliked list is stored but consulted by no check -/

theorem processRecipe_disliked (av : List (PyVal × PyVal)) (d d' : PyVal)
    (mi : Int) (r : PyVal) :
    processRecipe ⟨av, d, mi⟩ r = processRecipe ⟨av, d', mi⟩ r := rfl

theorem validate_recipes_disliked (av : List (PyVal × PyVal)) (d d' : PyVal)
    (mi : Int) (recipes : List (String × PyVal)) :
    validate_recipes ⟨av, d, mi⟩ recipes = validate_recipes ⟨av, d', mi⟩ recipes := by
  induction recipes with
  | nil => rfl
  | cons hd rest ih =>
      obtain ⟨k, r⟩ := hd
      simp only [validate_recipes]
      rw [processRecipe_disliked av d d' mi r]
      simp only [ih]

theorem mkValidator_ok_shape {a d m : PyVal} {v : Validator}
    (h : mkValidator a d m = .ok v) :
    ∃ items pairs mi, a = PyVal.list items ∧ extractAvail items = some pairs ∧
      m = PyVal.int mi ∧ v = ⟨pairs, d, mi⟩ := by
  cases a with
  | list items =>
      simp only [mkValidator] at h
      by_cases he : items.isEmpty = true
      · rw [if_pos he] at h; exact Except.noConfusion h
      · rw [if_neg he] at h
        cases hx : extractAvail items with
        | none => simp only [hx] at h; exact Except.noConfusion h
        | some pairs =>
            simp only [hx] at h
            by_cases hd2 : (pyTruthy d && !isList d) = true
            · rw [if_pos hd2] at h; exact Except.noConfusion h
            · rw [if_neg hd2] at h
              cases m with
              | int mi =>
                  by_cases hmi : mi ≤ 0
                  · simp [hmi] at h
                  · simp only [hmi, if_false] at h
                    injection h with h1
                    exact ⟨items, pairs, mi, rfl, hx, rfl, h1.symm⟩
              | str s => exact absurd h (by simp)
              | list xs => exact absurd h (by simp)
              | dict kvs => exact absurd h (by simp)
              | none_ => exact absurd h (by simp)
  | int n => exact absurd h (by simp [mkValidator])
  | str s => exact absurd h (by simp [mkValidator])
  | dict kvs => exact absurd h (by simp [mkValidator])
  | none_ => exact absurd h (by simp [mkValidator])

/-- C9: two validators built from the same available argument and the same
min-ingredients argument but any two disliked arguments accepted by
construction validate every collection identically: the disliked list is
stored but consulted by no check. -/
theorem validate_recipes_disliked_irrelevant (a d1 d2 m : PyVal) (v1 v2 : Validator)
    (h1 : mkValidator a d1 m = .ok v1) (h2 : mkValidator a d2 m = .ok v2)
    (recipes : List (String × PyVal)) :
    validate_recipes v1 recipes = validate_recipes v2 recipes := by
  obtain ⟨items, pairs, mi, ha, hx, hm, hv1⟩ := mkValidator_ok_shape h1
  obtain ⟨items2, pairs2, mi2, ha2, hx2, hm2, hv2⟩ := mkValidator_ok_shape h2
  rw [ha] at ha2
  injection ha2 with hitems
  rw [← hitems, hx] at hx2
  injection hx2 with hpairs
  rw [hm] at hm2
  injection hm2 with hmi
  rw [hv1, hv2, ← hpairs, ← hmi]
  exact validate_recipes_disliked pairs d1 d2 mi recipes

/-- Witness for C9: validators disliking flour versus nothing accept the
same collection, and the flour recipe is accepted despite being disliked. -/
theorem validate_recipes_disliked_irrelevant_witness :
    validate_recipes vA [("recipe_1", rFlour)] = validate_recipes vB [("recipe_1", rFlour)] ∧
    validate_recipes vA [("recipe_1", rFlour)] = .ok [rFlour] :=
  ⟨validate_recipes_disliked_irrelevant availEx (.list [.str "flour"]) (.list [])
      (.int 1) vA vB rfl rfl [("recipe_1", rFlour)],
   rfl⟩

/-! ### Loop lemmas for the quantity and culinary checks -/

theorem quantLoop_ok_of_all (av : List (PyVal × PyVal)) (ings : List (String × PyVal))
    (h : ∀ p ∈ ings, findAvail av (.str p.1) = none ∨
         ∃ aq, findAvail av (.str p.1) = some aq ∧ pyLe p.2 aq = .ok true) :
    quantLoop av (ings.map mkIngDict) = .ok true := by
  induction ings with
  | nil => rfl
  | cons p rest ih =>
      simp only [List.map_cons, quantLoop, dictGet_mkIngDict_name,
        dictGet_mkIngDict_quantity, exBind_ok]
      rcases h p (List.mem_cons_self p rest) with hf | ⟨aq, hf, hle⟩
      · simp only [hf]
        exact ih (fun q hq => h q (List.mem_cons_of_mem p hq))
      · simp only [hf, is_quantity_sufficient, hle, exBind_ok, if_true]
        exact ih (fun q hq => h q (List.mem_cons_of_mem p hq))

theorem quantLoop_int_iff (av : List (PyVal × PyVal))
    (hAv : ∀ p ∈ av, ∃ mv : Int, p.2 = PyVal.int mv) (ings : List (String × Int)) :
    (quantLoop av ((ings.map (fun p => (p.1, PyVal.int p.2))).map mkIngDict) = .ok true)
    ↔ ∀ p ∈ ings, ∀ aq, findAvail av (PyVal.str p.1) = some aq →
        ∃ mv : Int, aq = PyVal.int mv ∧ p.2 ≤ mv := by
  induction ings with
  | nil => simp [quantLoop]
  | cons p rest ih =>
      simp only [List.map_cons, quantLoop, dictGet_mkIngDict_name,
        dictGet_mkIngDict_quantity, exBind_ok]
      cases hf : findAvail av (PyVal.str p.1) with
      | none =>
          simp only [hf]
          rw [ih, List.forall_mem_cons]
          simp [hf]
      | some aq =>
          obtain ⟨pp, hmem, hppq⟩ := findAvail_mem hf
          obtain ⟨mv, hmv⟩ := hAv pp hmem
          have haq : aq = PyVal.int mv := by rw [← hppq, hmv]
          subst haq
          simp only [hf, is_quantity_sufficient, pyLe, exBind_ok]
          by_cases hle : p.2 ≤ mv
          · rw [decide_eq_true hle, if_pos rfl, ih, List.forall_mem_cons]
            constructor
            · intro hrest
              refine ⟨?_, hrest⟩
              intro aq' haq'
              rw [hf] at haq'
              injection haq' with he
              exact ⟨mv, he.symm, hle⟩
            · exact And.right
          · rw [decide_eq_false hle, if_neg (by decide)]
            constructor
            · intro hcontra; exact absurd hcontra (by simp)
            · intro hall
              obtain ⟨mv', he, hle'⟩ :=
                hall p (List.mem_cons_self p rest) (PyVal.int mv) hf
              injection he with he2
              rw [← he2] at hle'
              exact absurd hle' hle

theorem mentionLoop_mk (p : String × PyVal) (steps : List String)
    (h : ∃ s ∈ steps, strContainsSub (strLower s) (strLower p.1) = true) :
    mentionLoop (mkIngDict p) (steps.map PyVal.str) = .ok true := by
  induction steps with
  | nil => obtain ⟨s, hs, _⟩ := h; exact absurd hs (by simp)
  | cons s rest ih =>
      simp only [List.map_cons, mentionLoop, dictGet_mkIngDict_name, pyLower,
        exBind_ok]
      by_cases hc : strContainsSub (strLower s) (strLower p.1) = true
      · rw [if_pos hc]
      · rw [if_neg hc]
        apply ih
        rcases h with ⟨t, ht, hct⟩
        rcases List.mem_cons.mp ht with rfl | ht2
        · exact absurd hct hc
        · exact ⟨t, ht2, hct⟩

theorem culinaryLoop_mk (steps : List String) (ings : List (String × PyVal))
    (h : ∀ p ∈ ings, ∃ s ∈ steps, strContainsSub (strLower s) (strLower p.1) = true) :
    culinaryLoop (mkSteps steps) (ings.map mkIngDict) = .ok true := by
  induction ings with
  | nil => rfl
  | cons p rest ih =>
      simp only [List.map_cons, culinaryLoop, mkSteps, pyIter, exBind_ok]
      rw [mentionLoop_mk p steps (h p (List.mem_cons_self p rest))]
      simp only [exBind_ok, if_true]
      have := ih (fun q hq => h q (List.mem_cons_of_mem p hq))
      simpa [mkSteps] using this

theorem structLoop_dict (kvs : List (String × PyVal)) (fields : List String) :
    structLoop (.dict kvs) fields =
      .ok (fields.all (fun fl => kvs.any (fun p => p.1 == fl))) := by
  induction fields with
  | nil => rfl
  | cons f rest ih =>
      simp only [structLoop, pyContains, exBind_ok, List.all_cons]
      cases h : kvs.any (fun p => p.1 == f) <;> simp [h, ih]

/-! ### The three checks on a schema-shaped recipe -/

theorem validate_recipe_structure_mk (name : String) (ings : List (String × PyVal))
    (steps : List String) (ct dl : PyVal) :
    validate_recipe_structure (mkRecipe name ings steps ct dl) = .ok true := rfl

theorem dictGet_mkRecipe_ingredients (name : String) (ings : List (String × PyVal))
    (steps : List String) (ct dl : PyVal) :
    dictGet (mkRecipe name ings steps ct dl) "ingredients" = .ok (mkIngList ings) := rfl

theorem dictGet_mkRecipe_steps (name : String) (ings : List (String × PyVal))
    (steps : List String) (ct dl : PyVal) :
    dictGet (mkRecipe name ings steps ct dl) "steps" = .ok (mkSteps steps) := rfl

theorem validate_ingredient_quantities_mk (v : Validator) (ings : List (String × PyVal))
    (hq : ∀ p ∈ ings, findAvail v.available (.str p.1) = none ∨
          ∃ aq, findAvail v.available (.str p.1) = some aq ∧ pyLe p.2 aq = .ok true) :
    validate_ingredient_quantities v (mkIngList ings) = .ok true := by
  unfold validate_ingredient_quantities
  simp only [mkIngList, pyIter, exBind_ok]
  exact quantLoop_ok_of_all v.available ings hq

theorem validate_culinary_sense_mk (v : Validator) (ings : List (String × PyVal))
    (steps : List String)
    (hc : ∀ p ∈ ings, ∃ s ∈ steps, strContainsSub (strLower s) (strLower p.1) = true)
    (hn : v.min_ingredients_required ≤ (ings.length : Int)) :
    validate_culinary_sense v (mkIngList ings) (mkSteps steps) = .ok true := by
  unfold validate_culinary_sense
  simp only [mkIngList, pyLen, exBind_ok, List.length_map]
  rw [if_neg (not_lt.mpr hn)]
  simp only [pyIter, exBind_ok]
  exact culinaryLoop_mk steps ings hc

theorem processRecipe_mk (v : Validator) (name : String) (ings : List (String × PyVal))
    (steps : List String) (ct dl : PyVal)
    (hq : ∀ p ∈ ings, findAvail v.available (.str p.1) = none ∨
          ∃ aq, findAvail v.available (.str p.1) = some aq ∧ pyLe p.2 aq = .ok true)
    (hc : ∀ p ∈ ings, ∃ s ∈ steps, strContainsSub (strLower s) (strLower p.1) = true)
    (hn : v.min_ingredients_required ≤ (ings.length : Int)) :
    processRecipe v (mkRecipe name ings steps ct dl) =
      .ok (true, [Check.structural, Check.quantity, Check.culinary]) := by
  unfold processRecipe
  rw [validate_recipe_structure_mk, exBind_ok]
  simp only [dictGet_mkRecipe_ingredients, dictGet_mkRecipe_steps, exBind_ok,
    Bool.not_true, Bool.false_eq_true, if_false]
  rw [validate_ingredient_quantities_mk v ings hq, exBind_ok]
  simp only [Bool.not_true, Bool.false_eq_true, if_false]
  rw [validate_culinary_sense_mk v ings steps hc hn, exBind_ok]
  simp

/-! ### Membership lemmas for validate_recipes -/

theorem mem_result_of_processed (v : Validator) (k : String) (r : PyVal)
    (tr : List Check) (hproc : processRecipe v r = .ok (true, tr)) :
    ∀ (recipes : List (String × PyVal)) (res : List PyVal),
      validate_recipes v recipes = .ok res → (k, r) ∈ recipes → r ∈ res := by
  intro recipes
  induction recipes with
  | nil => intro res _ hmem; simp at hmem
  | cons hd rest ih =>
      intro res hrun hmem
      obtain ⟨k0, r0⟩ := hd
      simp only [validate_recipes] at hrun
      cases hp : processRecipe v r0 with
      | error e => rw [hp] at hrun; exact absurd hrun (by simp [exBind_error])
      | ok pr =>
          obtain ⟨b, tr0⟩ := pr
          rw [hp, exBind_ok] at hrun
          cases ht : validate_recipes v rest with
          | error e => rw [ht] at hrun; exact absurd hrun (by simp [exBind_error])
          | ok tail =>
              rw [ht, exBind_ok] at hrun
              rcases List.mem_cons.mp hmem with heq | hmem2
              · injection heq with hk hr
                rw [← hr] at hp
                rw [hproc] at hp
                injection hp with hpair
                injection hpair with hb htr
                rw [← hb] at hrun
                simp only [if_true] at hrun
                injection hrun with h
                rw [← h, hr]
                exact List.mem_cons_self _ _
              · have hmemtail := ih tail ht hmem2
                cases hb : b
                · rw [hb] at hrun
                  simp only [Bool.false_eq_true, if_false] at hrun
                  injection hrun with h
                  rw [← h]
                  exact hmemtail
                · rw [hb] at hrun
                  simp only [if_true] at hrun
                  injection hrun with h
                  rw [← h]
                  exact List.mem_cons_of_mem r0 hmemtail

theorem processed_of_mem_result (v : Validator) :
    ∀ (recipes : List (String × PyVal)) (res : List PyVal),
      validate_recipes v recipes = .ok res →
      ∀ r ∈ res, ∃ tr, processRecipe v r = .ok (true, tr) := by
  intro recipes
  induction recipes with
  | nil =>
      intro res hrun r hr
      simp only [validate_recipes] at hrun
      injection hrun with h
      rw [← h] at hr
      simp at hr
  | cons hd rest ih =>
      intro res hrun r hr
      obtain ⟨k0, r0⟩ := hd
      simp only [validate_recipes] at hrun
      cases hp : processRecipe v r0 with
      | error e => rw [hp] at hrun; exact absurd hrun (by simp [exBind_error])
      | ok pr =>
          obtain ⟨b, tr0⟩ := pr
          rw [hp, exBind_ok] at hrun
          cases ht : validate_recipes v rest with
          | error e => rw [ht] at hrun; exact absurd hrun (by simp [exBind_error])
          | ok tail =>
              rw [ht, exBind_ok] at hrun
              cases hb : b
              · rw [hb] at hrun
                simp only [Bool.false_eq_true, if_false] at hrun
                injection hrun with h
                rw [← h] at hr
                exact ih tail ht r hr
              · rw [hb] at hrun
                simp only [if_true] at hrun
                injection hrun with h
                rw [← h] at hr
                rcases List.mem_cons.mp hr with rfl | hr2
                · refine ⟨tr0, ?_⟩
                  rw [hp, hb]
                · exact ih tail ht r hr2

/-! ### C1: characterization of the quantity-sufficiency check -/

/-- C1: the quantity-sufficiency check passes a recipe ingredient list
exactly when every listed ingredient whose name matches an entry of the
available list requires no more than that entry offers under the numeric
comparison required <= available; listed ingredients whose name is absent
from the available list are skipped and never fail the check. Stated over
integer quantities, the numeric case the claim describes. -/
theorem validate_ingredient_quantities_iff (v : Validator) (ings : List (String × Int))
    (hAv : ∀ p ∈ v.available, ∃ mv : Int, p.2 = PyVal.int mv) :
    (validate_ingredient_quantities v
        (mkIngList (ings.map (fun p => (p.1, PyVal.int p.2)))) = .ok true)
    ↔ ∀ p ∈ ings, ∀ aq, findAvail v.available (PyVal.str p.1) = some aq →
        ∃ mv : Int, aq = PyVal.int mv ∧ p.2 ≤ mv := by
  unfold validate_ingredient_quantities
  simp only [mkIngList, pyIter, exBind_ok]
  exact quantLoop_int_iff v.available hAv ings

/-- Witness for C1: flour fits within the tracked 500 and salt is
untracked, so the check passes, and conversely. -/
theorem validate_ingredient_quantities_iff_witness :
    (validate_ingredient_quantities vW
        (mkIngList ([("flour", (100 : Int)), ("salt", 3)].map
          (fun p => (p.1, PyVal.int p.2)))) = .ok true)
    ↔ ∀ p ∈ [("flour", (100 : Int)), ("salt", 3)], ∀ aq,
        findAvail vW.available (PyVal.str p.1) = some aq →
        ∃ mv : Int, aq = PyVal.int mv ∧ p.2 ≤ mv :=
  validate_ingredient_quantities_iff vW [("flour", 100), ("salt", 3)] (by
    intro p hp
    simp only [vW, List.mem_cons, List.not_mem_nil, or_false] at hp
    rcases hp with rfl | rfl | rfl
    · exact ⟨500, rfl⟩
    · exact ⟨200, rfl⟩
    · exact ⟨100, rfl⟩)

/-! ### C2: well-supplied, well-mentioned, well-sized recipes are accepted -/

/-- C2: a recipe candidate of the schema shape whose listed ingredients
each fit within the matching available quantity or are untracked, whose
ingredient names each occur as a case-insensitive substring of some step,
and whose ingredient count reaches the minimum, is accepted by
validate_recipes and returned unchanged in the result. -/
theorem validate_recipes_accepts (v : Validator) (recipes : List (String × PyVal))
    (res : List PyVal) (k name : String) (ings : List (String × PyVal))
    (steps : List String) (ct dl : PyVal)
    (hrun : validate_recipes v recipes = .ok res)
    (hmem : (k, mkRecipe name ings steps ct dl) ∈ recipes)
    (hq : ∀ p ∈ ings, findAvail v.available (.str p.1) = none ∨
          ∃ aq, findAvail v.available (.str p.1) = some aq ∧ pyLe p.2 aq = .ok true)
    (hc : ∀ p ∈ ings, ∃ s ∈ steps, strContainsSub (strLower s) (strLower p.1) = true)
    (hn : v.min_ingredients_required ≤ (ings.length : Int)) :
    mkRecipe name ings steps ct dl ∈ res :=
  mem_result_of_processed v k (mkRecipe name ings steps ct dl)
    [Check.structural, Check.quantity, Check.culinary]
    (processRecipe_mk v name ings steps ct dl hq hc hn)
    recipes res hrun hmem

/-- Witness for C2 at the accepted recipe of the test suite. -/
theorem validate_recipes_accepts_witness : rGood ∈ ([rGood] : List PyVal) :=
  validate_recipes_accepts vW [("recipe_1", rGood)] [rGood] "recipe_1" "Cake"
    [("flour", .int 100), ("butter", .int 100)]
    ["Mix flour with butter and bake"] (.str "30 minutes") (.str "easy")
    rfl (List.mem_cons_self _ _)
    (by
      intro p hp
      simp only [List.mem_cons, List.not_mem_nil, or_false] at hp
      rcases hp with rfl | rfl
      · exact Or.inr ⟨.int 500, rfl, rfl⟩
      · exact Or.inr ⟨.int 100, rfl, rfl⟩)
    (by
      intro p hp
      simp only [List.mem_cons, List.not_mem_nil, or_false] at hp
      rcases hp with rfl | rfl
      · exact ⟨"Mix flour with butter and bake", List.mem_cons_self _ _, by decide⟩
      · exact ⟨"Mix flour with butter and bake", List.mem_cons_self _ _, by decide⟩)
    (by decide)

/-! ### C5: a missing required field short-circuits at the structural check -/

/-- C5: a candidate dictionary missing one of the five required fields is
rejected at the structural check alone: the per-recipe loop applies neither
the quantity check nor the culinary check to it, and no successful
validate_recipes run returns it. -/
theorem missing_field_rejected (v : Validator) (kvs : List (String × PyVal))
    (f : String) (hf : f ∈ required_fields) (hmiss : ∀ p ∈ kvs, ¬ p.1 = f) :
    processRecipe v (.dict kvs) = .ok (false, [Check.structural]) ∧
    ∀ (recipes : List (String × PyVal)) (res : List PyVal),
      validate_recipes v recipes = .ok res → PyVal.dict kvs ∉ res := by
  have hsf : validate_recipe_structure (.dict kvs) = .ok false := by
    unfold validate_recipe_structure
    rw [structLoop_dict]
    congr 1
    cases hall : required_fields.all (fun fl => kvs.any (fun p => p.1 == fl)) with
    | false => rfl
    | true =>
        have h1 := List.all_eq_true.mp hall f hf
        rw [List.any_eq_true] at h1
        obtain ⟨p, hp, hpf⟩ := h1
        exact absurd (by simpa using hpf) (hmiss p hp)
  have hpr : processRecipe v (.dict kvs) = .ok (false, [Check.structural]) := by
    unfold processRecipe
    rw [hsf, exBind_ok]
    rfl
  refine ⟨hpr, ?_⟩
  intro recipes res hrun hmem
  obtain ⟨tr, hproc⟩ := processed_of_mem_result v recipes res hrun _ hmem
  rw [hpr] at hproc
  injection hproc with hpair
  injection hpair with hb htr
  exact absurd hb (by decide)

/-- Witness for C5 at a candidate missing the steps field. -/
theorem missing_field_rejected_witness :
    processRecipe vW (.dict kvsNoSteps) = .ok (false, [Check.structural]) ∧
    PyVal.dict kvsNoSteps ∉ ([] : List PyVal) :=
  ⟨(missing_field_rejected vW kvsNoSteps "steps" (by decide) (by decide)).1,
   (missing_field_rejected vW kvsNoSteps "steps" (by decide) (by decide)).2
     [("recipe_1", .dict kvsNoSteps)] [] rfl⟩
